import Mathlib

/-!
Verification of the `whisperer` repository: two C bridging headers
(`src/Whisperer/Whisperer-Bridging-Header.h` and
`src/Whisperer/whisperer/whisperer/Whisperer-Bridging-Header.h`).

The repository contains no executable code, only preprocessor directives:
an include guard (`#ifndef` / `#define` / `#endif`) around four `#include`
directives. We embed the fragment of the C preprocessor these files use:
lines are comments, blanks, `#ifndef M`, `#define M`, `#include "p"`,
`#endif`, or (for the external headers a facade pulls in) declaration
lines. Preprocessing threads a state (the set of defined macros and the
list of declaration lines emitted so far) through the lines of a file,
resolving `#include` against an environment mapping include paths to file
contents; a fuel parameter bounds the number of lines processed so that
the embedding is total even on cyclic include environments.
-/

namespace Whisperer

/-- One line of a preprocessed source file, as the C preprocessor sees it:
a comment line, a blank line, the directives `#ifndef M`, `#define M`,
`#include "path"`, `#endif`, or a declaration line (the payload of the
external headers; the facade files themselves contain none). -/
inductive PPLine where
  | comment (text : String)
  | blank
  | ifndefD (m : String)
  | defineD (m : String)
  | includeD (path : String)
  | endifD
  | declD (s : String)
  deriving DecidableEq, Repr

/-- Preprocessor state: the macros defined so far, and the declaration
lines emitted so far (the symbols a translation unit sees). -/
structure PPState where
  defined : List String
  out : List String
  deriving DecidableEq, Repr

/-- Result of preprocessing: success with a final state, a failed
`#include` resolution (a build-time error naming the unresolvable path),
or fuel exhaustion (an artifact of the bounded embedding). -/
inductive PPRes where
  | ok (st : PPState)
  | unresolved (path : String)
  | fuelOut
  deriving DecidableEq, Repr

/-- An include environment: maps an include path to the contents of the
file it names, or `none` when the path does not resolve. -/
def Env : Type := String → Option (List PPLine)

/-- Whether the conditional stack says we are inside a failed
conditional, i.e. the current line is skipped. -/
def skipping : List Bool → Bool
  | [] => false
  | b :: stk => !b || skipping stk

/-- The preprocessor: process `lines` with conditional stack `stk` and
state `st`, resolving `#include` through `env`. Each line costs one unit
of fuel; an included file is processed recursively on the remaining
fuel, so the embedding is total even if `env` is cyclic. -/
def ppLines (env : Env) : Nat → List PPLine → List Bool → PPState → PPRes
  | _, [], _, st => .ok st
  | 0, _ :: _, _, _ => .fuelOut
  | fuel + 1, l :: ls, stk, st =>
    match l with
    | .comment _ => ppLines env fuel ls stk st
    | .blank => ppLines env fuel ls stk st
    | .ifndefD m =>
      if skipping stk then ppLines env fuel ls (false :: stk) st
      else ppLines env fuel ls (decide (m ∉ st.defined) :: stk) st
    | .defineD m =>
      if skipping stk then ppLines env fuel ls stk st
      else ppLines env fuel ls stk { st with defined := st.defined ++ [m] }
    | .endifD => ppLines env fuel ls stk.tail st
    | .declD s =>
      if skipping stk then ppLines env fuel ls stk st
      else ppLines env fuel ls stk { st with out := st.out ++ [s] }
    | .includeD p =>
      if skipping stk then ppLines env fuel ls stk st
      else
        match env p with
        | none => .unresolved p
        | some content =>
          match ppLines env fuel content [] st with
          | .ok st2 => ppLines env fuel ls stk st2
          | r => r

/-- Process a whole file: its lines, starting from an empty conditional
stack. -/
def ppFile (env : Env) (fuel : Nat) (file : List PPLine) (st : PPState) : PPRes :=
  ppLines env fuel file [] st

/-- The guard macro both facade files use. -/
def guardM : String := "Whisperer_Bridging_Header_h"

/-- `src/Whisperer/Whisperer-Bridging-Header.h`, line by line (17 lines,
the last one empty). Its four `#include` directives use the relative
path `../whisper.cpp/...`. -/
def relFacade : List PPLine :=
  [ .comment "//",
    .comment "//  Whisperer-Bridging-Header.h",
    .comment "//  Whisperer",
    .comment "//",
    .comment "//  Bridging header for whisper.cpp C library integration",
    .comment "//",
    .blank,
    .ifndefD "Whisperer_Bridging_Header_h",
    .defineD "Whisperer_Bridging_Header_h",
    .blank,
    .includeD "../whisper.cpp/ggml/include/ggml.h",
    .includeD "../whisper.cpp/ggml/include/ggml-cpu.h",
    .includeD "../whisper.cpp/ggml/include/ggml-backend.h",
    .includeD "../whisper.cpp/include/whisper.h",
    .blank,
    .endifD,
    .blank ]

/-- `src/Whisperer/whisperer/whisperer/Whisperer-Bridging-Header.h`, line
by line (16 lines, no trailing blank line). Its four `#include`
directives use the absolute machine-specific path
`/Users/alexanderi/Downloads/whisperer/whisper.cpp/...`. -/
def absFacade : List PPLine :=
  [ .comment "//",
    .comment "//  Whisperer-Bridging-Header.h",
    .comment "//  Whisperer",
    .comment "//",
    .comment "//  Bridging header for whisper.cpp C library integration",
    .comment "//",
    .blank,
    .ifndefD "Whisperer_Bridging_Header_h",
    .defineD "Whisperer_Bridging_Header_h",
    .blank,
    .includeD "/Users/alexanderi/Downloads/whisperer/whisper.cpp/ggml/include/ggml.h",
    .includeD "/Users/alexanderi/Downloads/whisperer/whisper.cpp/ggml/include/ggml-cpu.h",
    .includeD "/Users/alexanderi/Downloads/whisperer/whisper.cpp/ggml/include/ggml-backend.h",
    .includeD "/Users/alexanderi/Downloads/whisperer/whisper.cpp/include/whisper.h",
    .blank,
    .endifD ]

/-- The four include paths of the relative-path facade, in file order. -/
def relPaths : List String :=
  [ "../whisper.cpp/ggml/include/ggml.h",
    "../whisper.cpp/ggml/include/ggml-cpu.h",
    "../whisper.cpp/ggml/include/ggml-backend.h",
    "../whisper.cpp/include/whisper.h" ]

/-- The four include paths of the absolute-path facade, in file order. -/
def absPaths : List String :=
  [ "/Users/alexanderi/Downloads/whisperer/whisper.cpp/ggml/include/ggml.h",
    "/Users/alexanderi/Downloads/whisperer/whisper.cpp/ggml/include/ggml-cpu.h",
    "/Users/alexanderi/Downloads/whisperer/whisper.cpp/ggml/include/ggml-backend.h",
    "/Users/alexanderi/Downloads/whisperer/whisper.cpp/include/whisper.h" ]

/-- The include path of a line, when it is an `#include`. -/
def lineIncl : PPLine → Option String
  | .includeD p => some p
  | _ => none

/-- The macro a line defines, when it is a `#define`. -/
def lineDef : PPLine → Option String
  | .defineD m => some m
  | _ => none

/-- The declaration a line carries, when it is a declaration line. -/
def lineDecl : PPLine → Option String
  | .declD s => some s
  | _ => none

/-- Whether a line is not blank. -/
def nonBlank : PPLine → Bool
  | .blank => false
  | _ => true

/-- The effect of a run of include-free lines on the preprocessor state:
a pure state transformer (no environment, no fuel needed). -/
def ppPure : List PPLine → List Bool → PPState → PPState
  | [], _, st => st
  | l :: ls, stk, st =>
    match l with
    | .comment _ => ppPure ls stk st
    | .blank => ppPure ls stk st
    | .ifndefD m =>
      if skipping stk then ppPure ls (false :: stk) st
      else ppPure ls (decide (m ∉ st.defined) :: stk) st
    | .defineD m =>
      if skipping stk then ppPure ls stk st
      else ppPure ls stk { st with defined := st.defined ++ [m] }
    | .endifD => ppPure ls stk.tail st
    | .declD s =>
      if skipping stk then ppPure ls stk st
      else ppPure ls stk { st with out := st.out ++ [s] }
    | .includeD _ => ppPure ls stk st

/-- The body shared by both facade files once blank lines are dropped,
as a function of the base path prefixed to the four header names: six
comment lines, the include guard, the four `#include` directives —
`ggml/include/ggml.h`, `ggml/include/ggml-cpu.h`,
`ggml/include/ggml-backend.h`, `include/whisper.h` under `base` — and
the closing `#endif`. -/
def mkFacadeCore (base : String) : List PPLine :=
  [ .comment "//",
    .comment "//  Whisperer-Bridging-Header.h",
    .comment "//  Whisperer",
    .comment "//",
    .comment "//  Bridging header for whisper.cpp C library integration",
    .comment "//",
    .ifndefD "Whisperer_Bridging_Header_h",
    .defineD "Whisperer_Bridging_Header_h",
    .includeD (base ++ "ggml/include/ggml.h"),
    .includeD (base ++ "ggml/include/ggml-cpu.h"),
    .includeD (base ++ "ggml/include/ggml-backend.h"),
    .includeD (base ++ "include/whisper.h"),
    .endifD ]

/-- The base path the relative facade prefixes to the four headers. -/
def relBase : String := "../whisper.cpp/"

/-- The machine-specific base path the nested facade prefixes to the
four headers. -/
def absBase : String := "/Users/alexanderi/Downloads/whisperer/whisper.cpp/"

/-- A sample include environment for the relative-path facade: each of
its four include paths resolves to a stub header holding one
declaration line standing for that capability group. -/
def envStubRel : Env := fun p =>
  if p = "../whisper.cpp/ggml/include/ggml.h" then some [.declD "ggml-decls"]
  else if p = "../whisper.cpp/ggml/include/ggml-cpu.h" then some [.declD "ggml-cpu-decls"]
  else if p = "../whisper.cpp/ggml/include/ggml-backend.h" then some [.declD "ggml-backend-decls"]
  else if p = "../whisper.cpp/include/whisper.h" then some [.declD "whisper-decls"]
  else none

/-- The analogous sample environment for the absolute-path facade. -/
def envStubAbs : Env := fun p =>
  if p = "/Users/alexanderi/Downloads/whisperer/whisper.cpp/ggml/include/ggml.h" then
    some [.declD "ggml-decls"]
  else if p = "/Users/alexanderi/Downloads/whisperer/whisper.cpp/ggml/include/ggml-cpu.h" then
    some [.declD "ggml-cpu-decls"]
  else if p = "/Users/alexanderi/Downloads/whisperer/whisper.cpp/ggml/include/ggml-backend.h" then
    some [.declD "ggml-backend-decls"]
  else if p = "/Users/alexanderi/Downloads/whisperer/whisper.cpp/include/whisper.h" then
    some [.declD "whisper-decls"]
  else none

/-- The state after one inclusion of a facade under its stub
environment: the guard macro is defined and the stub declarations of the four
capability groups have been emitted, in include order. -/
def stubOnce : PPState :=
  ⟨["Whisperer_Bridging_Header_h"],
   ["ggml-decls", "ggml-cpu-decls", "ggml-backend-decls", "whisper-decls"]⟩

/-- A cyclic include environment: the first header the relative facade
includes turns around and includes the facade itself (under the path
`Whisperer-Bridging-Header.h`) before its own declaration; the other
three headers are one-declaration stubs. -/
def envCyc : Env := fun p =>
  if p = "../whisper.cpp/ggml/include/ggml.h" then
    some [.includeD "Whisperer-Bridging-Header.h", .declD "ggml-decls"]
  else if p = "Whisperer-Bridging-Header.h" then some relFacade
  else if p = "../whisper.cpp/ggml/include/ggml-cpu.h" then some [.declD "ggml-cpu-decls"]
  else if p = "../whisper.cpp/ggml/include/ggml-backend.h" then some [.declD "ggml-backend-decls"]
  else if p = "../whisper.cpp/include/whisper.h" then some [.declD "whisper-decls"]
  else none

/-- Split a list of characters at every slash. -/
def splitChars : List Char → List (List Char)
  | [] => [[]]
  | c :: cs =>
    let r := splitChars cs
    if c = '/' then [] :: r
    else
      match r with
      | [] => [[c]]
      | g :: gs => (c :: g) :: gs

/-- Split an include path into its slash-separated segments. -/
def splitPath (p : String) : List String := (splitChars p.data).map (fun g => String.mk g)

/-- Resolve a segment sequence against a directory, one segment at a
time: `..` pops the last directory component, any other segment is
appended. -/
def resolveSegs : List String → List String → List String
  | dir, [] => dir
  | dir, s :: rest =>
    if s = ".." then resolveSegs dir.dropLast rest else resolveSegs (dir ++ [s]) rest

/-- Resolve a quoted include path against the directory of the including
file, as the C preprocessor does for `#include "..."`. -/
def resolveFrom (dir : List String) (p : String) : List String := resolveSegs dir (splitPath p)

/-- The include environment a filesystem `fs` (a list of absolute paths,
each a segment list) induces for a file sitting in directory `dir`: an
include path resolves when the resolved path is present in `fs`, and
then yields a one-declaration stub header. -/
def envFS (fs : List (List String)) (dir : List String) : Env := fun p =>
  if resolveFrom dir p ∈ fs then some [PPLine.declD p] else none

/-- The four paths, relative to the parent of the directory holding the
facade, that the includes of the relative facade resolve to: a sibling directory
`whisper.cpp` holding the four headers. -/
def siblingTargets : List (List String) :=
  [ ["whisper.cpp", "ggml", "include", "ggml.h"],
    ["whisper.cpp", "ggml", "include", "ggml-cpu.h"],
    ["whisper.cpp", "ggml", "include", "ggml-backend.h"],
    ["whisper.cpp", "include", "whisper.h"] ]

/-- Processing the empty list succeeds with the state unchanged, at any
fuel. -/
theorem ppLines_nil (env : Env) (fuel : Nat) (stk : List Bool) (st : PPState) :
    ppLines env fuel [] stk st = .ok st := by
  cases fuel <;> rfl

/-- A run of include-free lines always succeeds, at fuel
`length + anything`, and its effect is the pure transformer `ppPure`. -/
theorem ppLines_flat (env : Env) :
    ∀ (ls : List PPLine), (∀ q, PPLine.includeD q ∉ ls) →
      ∀ (k : Nat) (stk : List Bool) (st : PPState),
        ppLines env (k + ls.length) ls stk st = .ok (ppPure ls stk st) := by
  intro ls
  induction ls with
  | nil => intro _ k stk st; exact ppLines_nil env k stk st
  | cons l ls ih =>
    intro hq k stk st
    have hq2 : ∀ q, PPLine.includeD q ∉ ls := fun q hmem => hq q (List.mem_cons_of_mem l hmem)
    show ppLines env ((k + ls.length) + 1) (l :: ls) stk st = .ok (ppPure (l :: ls) stk st)
    cases l with
    | comment t => exact ih hq2 k stk st
    | blank => exact ih hq2 k stk st
    | endifD => exact ih hq2 k stk.tail st
    | includeD p => exact absurd (List.mem_cons_self _ _) (hq p)
    | ifndefD m =>
      cases hs : skipping stk
      · simpa [ppLines, ppPure, hs] using ih hq2 k (decide (m ∉ st.defined) :: stk) st
      · simpa [ppLines, ppPure, hs] using ih hq2 k (false :: stk) st
    | defineD m =>
      cases hs : skipping stk
      · simpa [ppLines, ppPure, hs] using ih hq2 k stk { st with defined := st.defined ++ [m] }
      · simpa [ppLines, ppPure, hs] using ih hq2 k stk st
    | declD s =>
      cases hs : skipping stk
      · simpa [ppLines, ppPure, hs] using ih hq2 k stk { st with out := st.out ++ [s] }
      · simpa [ppLines, ppPure, hs] using ih hq2 k stk st

/-- Fuel monotonicity: a run that does not exhaust its fuel gives the
same result at any larger fuel. -/
theorem ppLines_mono (env : Env) :
    ∀ (fuel fuel2 : Nat) (ls : List PPLine) (stk : List Bool) (st : PPState) (r : PPRes),
      fuel ≤ fuel2 → r ≠ .fuelOut → ppLines env fuel ls stk st = r →
      ppLines env fuel2 ls stk st = r := by
  intro fuel
  induction fuel with
  | zero =>
    intro fuel2 ls stk st r _ hr h
    cases ls with
    | nil => rw [ppLines_nil] at h ⊢; exact h
    | cons l ls => exact absurd h.symm (by simpa [ppLines] using hr)
  | succ n ih =>
    intro fuel2 ls stk st r hle hr h
    cases ls with
    | nil => rw [ppLines_nil] at h ⊢; exact h
    | cons l ls =>
      obtain ⟨m, rfl⟩ : ∃ m, fuel2 = m + 1 := ⟨fuel2 - 1, by omega⟩
      have hnm : n ≤ m := by omega
      cases l with
      | comment t => exact ih m ls stk st r hnm hr h
      | blank => exact ih m ls stk st r hnm hr h
      | endifD => exact ih m ls stk.tail st r hnm hr h
      | ifndefD mac =>
        cases hs : skipping stk <;> simp only [ppLines, hs] at h ⊢
        · exact ih m ls (decide (mac ∉ st.defined) :: stk) st r hnm hr h
        · exact ih m ls (false :: stk) st r hnm hr h
      | defineD mac =>
        cases hs : skipping stk <;> simp only [ppLines, hs] at h ⊢
        · exact ih m ls stk { st with defined := st.defined ++ [mac] } r hnm hr h
        · exact ih m ls stk st r hnm hr h
      | declD s =>
        cases hs : skipping stk <;> simp only [ppLines, hs] at h ⊢
        · exact ih m ls stk { st with out := st.out ++ [s] } r hnm hr h
        · exact ih m ls stk st r hnm hr h
      | includeD p =>
        cases hs : skipping stk <;> simp only [ppLines, hs] at h ⊢
        · cases he : env p with
          | none => simp only [he] at h ⊢; exact h
          | some content =>
            simp only [he] at h ⊢
            cases hnest : ppLines env n content [] st with
            | ok st2 =>
              rw [ih m content [] st (.ok st2) hnm (by simp) hnest]
              rw [hnest] at h
              exact ih m ls stk st2 r hnm hr h
            | unresolved q =>
              rw [ih m content [] st (.unresolved q) hnm (by simp) hnest]
              rw [hnest] at h
              exact h
            | fuelOut =>
              rw [hnest] at h
              exact absurd h.symm hr
        · exact ih m ls stk st r hnm hr h

/-- A successful run processed every line of its list, so its fuel is at
least the list length. -/
theorem ppLines_ok_length (env : Env) :
    ∀ (fuel : Nat) (ls : List PPLine) (stk : List Bool) (st st2 : PPState),
      ppLines env fuel ls stk st = .ok st2 → ls.length ≤ fuel := by
  intro fuel
  induction fuel with
  | zero =>
    intro ls stk st st2 h
    cases ls with
    | nil => simp
    | cons l ls => simp [ppLines] at h
  | succ n ih =>
    intro ls stk st st2 h
    cases ls with
    | nil => simp
    | cons l ls =>
      have hlen : ls.length ≤ n := by
        cases l with
        | comment t => exact ih ls stk st st2 h
        | blank => exact ih ls stk st st2 h
        | endifD => exact ih ls stk.tail st st2 h
        | ifndefD mac =>
          cases hs : skipping stk <;> simp only [ppLines, hs] at h
          · exact ih ls (decide (mac ∉ st.defined) :: stk) st st2 h
          · exact ih ls (false :: stk) st st2 h
        | defineD mac =>
          cases hs : skipping stk <;> simp only [ppLines, hs] at h
          · exact ih ls stk { st with defined := st.defined ++ [mac] } st2 h
          · exact ih ls stk st st2 h
        | declD s =>
          cases hs : skipping stk <;> simp only [ppLines, hs] at h
          · exact ih ls stk { st with out := st.out ++ [s] } st2 h
          · exact ih ls stk st st2 h
        | includeD p =>
          cases hs : skipping stk <;> simp only [ppLines, hs] at h
          · cases he : env p with
            | none => simp [he] at h
            | some content =>
              simp only [he] at h
              cases hnest : ppLines env n content [] st with
              | ok stm => rw [hnest] at h; exact ih ls stk stm st2 h
              | unresolved q => rw [hnest] at h; exact absurd h (by simp)
              | fuelOut => rw [hnest] at h; exact absurd h (by simp)
          · exact ih ls stk st st2 h
      simpa using Nat.succ_le_succ hlen

/-- A run only ever adds macros to the defined set: any macro defined
before a successful run is still defined after it. -/
theorem ppLines_defined_mono (env : Env) :
    ∀ (fuel : Nat) (ls : List PPLine) (stk : List Bool) (st st2 : PPState),
      ppLines env fuel ls stk st = .ok st2 →
      ∀ mac, mac ∈ st.defined → mac ∈ st2.defined := by
  intro fuel
  induction fuel with
  | zero =>
    intro ls stk st st2 h mac hmem
    cases ls with
    | nil => rw [ppLines_nil] at h; cases h; exact hmem
    | cons l ls => simp [ppLines] at h
  | succ n ih =>
    intro ls stk st st2 h mac hmem
    cases ls with
    | nil => rw [ppLines_nil] at h; cases h; exact hmem
    | cons l ls =>
      cases l with
      | comment t => exact ih ls stk st st2 h mac hmem
      | blank => exact ih ls stk st st2 h mac hmem
      | endifD => exact ih ls stk.tail st st2 h mac hmem
      | ifndefD mc =>
        cases hs : skipping stk <;> simp only [ppLines, hs] at h
        · exact ih ls (decide (mc ∉ st.defined) :: stk) st st2 h mac hmem
        · exact ih ls (false :: stk) st st2 h mac hmem
      | defineD mc =>
        cases hs : skipping stk <;> simp only [ppLines, hs] at h
        · exact ih ls stk { st with defined := st.defined ++ [mc] } st2 h mac
            (List.mem_append_left _ hmem)
        · exact ih ls stk st st2 h mac hmem
      | declD s =>
        cases hs : skipping stk <;> simp only [ppLines, hs] at h
        · exact ih ls stk { st with out := st.out ++ [s] } st2 h mac hmem
        · exact ih ls stk st st2 h mac hmem
      | includeD p =>
        cases hs : skipping stk <;> simp only [ppLines, hs] at h
        · cases he : env p with
          | none => simp [he] at h
          | some content =>
            simp only [he] at h
            cases hnest : ppLines env n content [] st with
            | ok stm =>
              rw [hnest] at h
              exact ih ls stk stm st2 h mac (ih content [] st stm hnest mac hmem)
            | unresolved q => rw [hnest] at h; exact absurd h (by simp)
            | fuelOut => rw [hnest] at h; exact absurd h (by simp)
        · exact ih ls stk st st2 h mac hmem

/-- If neither the processed lines nor any file the environment can
supply contains a declaration line, a successful run leaves the emitted
output unchanged. -/
theorem ppLines_out_stable (env : Env)
    (henv : ∀ p c, env p = some c → ∀ s, PPLine.declD s ∉ c) :
    ∀ (fuel : Nat) (ls : List PPLine) (stk : List Bool) (st st2 : PPState),
      (∀ s, PPLine.declD s ∉ ls) → ppLines env fuel ls stk st = .ok st2 →
      st2.out = st.out := by
  intro fuel
  induction fuel with
  | zero =>
    intro ls stk st st2 hnd h
    cases ls with
    | nil => rw [ppLines_nil] at h; cases h; rfl
    | cons l ls => simp [ppLines] at h
  | succ n ih =>
    intro ls stk st st2 hnd h
    cases ls with
    | nil => rw [ppLines_nil] at h; cases h; rfl
    | cons l ls =>
      have hnd2 : ∀ s, PPLine.declD s ∉ ls := fun s hmem => hnd s (List.mem_cons_of_mem l hmem)
      cases l with
      | comment t => exact ih ls stk st st2 hnd2 h
      | blank => exact ih ls stk st st2 hnd2 h
      | endifD => exact ih ls stk.tail st st2 hnd2 h
      | declD s => exact absurd (List.mem_cons_self _ _) (hnd s)
      | ifndefD mc =>
        cases hs : skipping stk <;> simp only [ppLines, hs] at h
        · exact ih ls (decide (mc ∉ st.defined) :: stk) st st2 hnd2 h
        · exact ih ls (false :: stk) st st2 hnd2 h
      | defineD mc =>
        cases hs : skipping stk <;> simp only [ppLines, hs] at h
        · exact ih ls stk { st with defined := st.defined ++ [mc] } st2 hnd2 h
        · exact ih ls stk st st2 hnd2 h
      | includeD p =>
        cases hs : skipping stk <;> simp only [ppLines, hs] at h
        · cases he : env p with
          | none => simp [he] at h
          | some content =>
            simp only [he] at h
            cases hnest : ppLines env n content [] st with
            | ok stm =>
              rw [hnest] at h
              rw [ih ls stk stm st2 hnd2 h, ih content [] st stm (henv p content he) hnest]
            | unresolved q => rw [hnest] at h; exact absurd h (by simp)
            | fuelOut => rw [hnest] at h; exact absurd h (by simp)
        · exact ih ls stk st st2 hnd2 h

/-- When the guard macro is already defined, processing the relative-path
facade is a no-op: the `#ifndef` fails, every line up to `#endif` is
skipped (no `#include` is even looked up), and the state is returned
unchanged. Seventeen units of fuel (one per line) suffice. -/
theorem relFacade_skip (env : Env) (k : Nat) (st : PPState) (h : guardM ∈ st.defined) :
    ppLines env (k + 17) relFacade [] st = .ok st := by
  have hd : decide (guardM ∉ st.defined) = false := by simp [h]
  have h1 : ppLines env (k + 17) relFacade [] st
      = ppLines env (k + 9)
          [ PPLine.defineD "Whisperer_Bridging_Header_h",
            PPLine.blank,
            PPLine.includeD "../whisper.cpp/ggml/include/ggml.h",
            PPLine.includeD "../whisper.cpp/ggml/include/ggml-cpu.h",
            PPLine.includeD "../whisper.cpp/ggml/include/ggml-backend.h",
            PPLine.includeD "../whisper.cpp/include/whisper.h",
            PPLine.blank,
            PPLine.endifD,
            PPLine.blank ]
          [decide (guardM ∉ st.defined)] st := rfl
  rw [h1, hd]
  exact ppLines_nil env k [] st

/-- When the guard macro is already defined, processing the absolute-path
facade is a no-op, exactly as for the relative one; its unresolvable
absolute paths are never looked up. Sixteen units of fuel suffice. -/
theorem absFacade_skip (env : Env) (k : Nat) (st : PPState) (h : guardM ∈ st.defined) :
    ppLines env (k + 16) absFacade [] st = .ok st := by
  have hd : decide (guardM ∉ st.defined) = false := by simp [h]
  have h1 : ppLines env (k + 16) absFacade [] st
      = ppLines env (k + 8)
          [ PPLine.defineD "Whisperer_Bridging_Header_h",
            PPLine.blank,
            PPLine.includeD "/Users/alexanderi/Downloads/whisperer/whisper.cpp/ggml/include/ggml.h",
            PPLine.includeD "/Users/alexanderi/Downloads/whisperer/whisper.cpp/ggml/include/ggml-cpu.h",
            PPLine.includeD "/Users/alexanderi/Downloads/whisperer/whisper.cpp/ggml/include/ggml-backend.h",
            PPLine.includeD "/Users/alexanderi/Downloads/whisperer/whisper.cpp/include/whisper.h",
            PPLine.blank,
            PPLine.endifD ]
          [decide (guardM ∉ st.defined)] st := rfl
  rw [h1, hd]
  exact ppLines_nil env k [] st

/-- When the guard macro is not yet defined, the first ten lines of the
relative-path facade (comments, blank, `#ifndef`, `#define`, blank)
define the guard — before any `#include` is processed — and leave the
four `#include` directives and the closing lines to run with the guard
already in the defined set. -/
theorem relFacade_open (env : Env) (k : Nat) (st : PPState) (h : guardM ∉ st.defined) :
    ppLines env (k + 10) relFacade [] st
      = ppLines env k
          (relPaths.map PPLine.includeD ++ [PPLine.blank, PPLine.endifD, PPLine.blank])
          [true] { st with defined := st.defined ++ [guardM] } := by
  have hd : decide (guardM ∉ st.defined) = true := by simp [h]
  have h1 : ppLines env (k + 10) relFacade [] st
      = ppLines env (k + 2)
          [ PPLine.defineD "Whisperer_Bridging_Header_h",
            PPLine.blank,
            PPLine.includeD "../whisper.cpp/ggml/include/ggml.h",
            PPLine.includeD "../whisper.cpp/ggml/include/ggml-cpu.h",
            PPLine.includeD "../whisper.cpp/ggml/include/ggml-backend.h",
            PPLine.includeD "../whisper.cpp/include/whisper.h",
            PPLine.blank,
            PPLine.endifD,
            PPLine.blank ]
          [decide (guardM ∉ st.defined)] st := rfl
  rw [h1, hd]
  rfl

/-- When the guard macro is not yet defined, the first ten lines of the
absolute-path facade define the guard — before any `#include` is
processed — exactly as for the relative one. -/
theorem absFacade_open (env : Env) (k : Nat) (st : PPState) (h : guardM ∉ st.defined) :
    ppLines env (k + 10) absFacade [] st
      = ppLines env k
          (absPaths.map PPLine.includeD ++ [PPLine.blank, PPLine.endifD])
          [true] { st with defined := st.defined ++ [guardM] } := by
  have hd : decide (guardM ∉ st.defined) = true := by simp [h]
  have h1 : ppLines env (k + 10) absFacade [] st
      = ppLines env (k + 2)
          [ PPLine.defineD "Whisperer_Bridging_Header_h",
            PPLine.blank,
            PPLine.includeD "/Users/alexanderi/Downloads/whisperer/whisper.cpp/ggml/include/ggml.h",
            PPLine.includeD "/Users/alexanderi/Downloads/whisperer/whisper.cpp/ggml/include/ggml-cpu.h",
            PPLine.includeD "/Users/alexanderi/Downloads/whisperer/whisper.cpp/ggml/include/ggml-backend.h",
            PPLine.includeD "/Users/alexanderi/Downloads/whisperer/whisper.cpp/include/whisper.h",
            PPLine.blank,
            PPLine.endifD ]
          [decide (guardM ∉ st.defined)] st := rfl
  rw [h1, hd]
  rfl

/-- Stepping over one `#include` that resolves to an include-free file:
it consumes one unit of fuel plus one per included line, and its whole
effect is the pure transformer of the included content. -/
theorem ppLines_include_step (env : Env) (p : String) (c ls : List PPLine)
    (stk : List Bool) (st : PPState) (hc : env p = some c)
    (hskip : skipping stk = false) (hflat : ∀ q, PPLine.includeD q ∉ c) (k : Nat) :
    ppLines env ((k + c.length) + 1) (PPLine.includeD p :: ls) stk st
      = ppLines env (k + c.length) ls stk (ppPure c [] st) := by
  have hrun := ppLines_flat env c hflat k [] st
  simp [ppLines, hskip, hc, hrun]

/-- A run of blank lines and `#endif` lines always succeeds and leaves
the state unchanged. -/
theorem ppLines_tail_ok (env : Env) :
    ∀ (rest : List PPLine), (∀ x ∈ rest, x = PPLine.blank ∨ x = PPLine.endifD) →
      ∀ (k : Nat) (stk : List Bool) (st : PPState),
        ppLines env (k + rest.length) rest stk st = .ok st := by
  intro rest
  induction rest with
  | nil => intro _ k stk st; exact ppLines_nil env (k + List.length []) stk st
  | cons x rest ih =>
    intro hx k stk st
    have hx2 : ∀ y ∈ rest, y = PPLine.blank ∨ y = PPLine.endifD :=
      fun y hy => hx y (List.mem_cons_of_mem x hy)
    rcases hx x (List.mem_cons_self _ _) with rfl | rfl
    · exact ih hx2 k stk st
    · exact ih hx2 k stk.tail st

/-- If every path in `ps` resolves to an include-free file, then — given
enough fuel — processing the corresponding run of `#include` lines
followed by blank and `#endif` lines succeeds. -/
theorem ppLines_incl_ok (env : Env) :
    ∀ (ps : List String),
      (∀ p ∈ ps, ∃ c, env p = some c ∧ ∀ q, PPLine.includeD q ∉ c) →
      ∀ (rest : List PPLine), (∀ x ∈ rest, x = PPLine.blank ∨ x = PPLine.endifD) →
      ∀ (stk : List Bool), skipping stk = false →
      ∀ (st : PPState),
        ∃ f0, ∀ fuel, f0 ≤ fuel →
          ∃ st2, ppLines env fuel (ps.map PPLine.includeD ++ rest) stk st = .ok st2 := by
  intro ps
  induction ps with
  | nil =>
    intro _ rest hrest stk _ st
    refine ⟨rest.length, fun fuel hf => ⟨st, ?_⟩⟩
    obtain ⟨k, rfl⟩ : ∃ k, fuel = k + rest.length := ⟨fuel - rest.length, by omega⟩
    exact ppLines_tail_ok env rest hrest k stk st
  | cons p ps ih =>
    intro hps rest hrest stk hskip st
    obtain ⟨c, hc, hflat⟩ := hps p (List.mem_cons_self _ _)
    have hps2 : ∀ q ∈ ps, ∃ c, env q = some c ∧ ∀ r, PPLine.includeD r ∉ c :=
      fun q hq => hps q (List.mem_cons_of_mem p hq)
    obtain ⟨f1, hf1⟩ := ih hps2 rest hrest stk hskip (ppPure c [] st)
    refine ⟨(f1 + c.length) + 1, fun fuel hf => ?_⟩
    obtain ⟨k, hk, rfl⟩ : ∃ k, f1 ≤ k ∧ fuel = (k + c.length) + 1 :=
      ⟨fuel - c.length - 1, by omega, by omega⟩
    simp only [List.map_cons, List.cons_append]
    rw [ppLines_include_step env p c _ stk st hc hskip hflat k]
    exact hf1 (k + c.length) (by omega)

/-- If some path in `ps` does not resolve (and the ones that do resolve
yield include-free files), then — given enough fuel — processing the
corresponding run of `#include` lines fails with an unresolved-path
error naming one of the paths of `ps`. -/
theorem ppLines_incl_fail (env : Env) :
    ∀ (ps : List String),
      (∀ p ∈ ps, ∀ c, env p = some c → ∀ q, PPLine.includeD q ∉ c) →
      (¬ ∀ p ∈ ps, (env p).isSome = true) →
      ∀ (rest : List PPLine) (stk : List Bool), skipping stk = false →
      ∀ (st : PPState),
        ∃ f0, ∀ fuel, f0 ≤ fuel →
          ∃ p, p ∈ ps ∧
            ppLines env fuel (ps.map PPLine.includeD ++ rest) stk st = .unresolved p := by
  intro ps
  induction ps with
  | nil => intro _ hmiss; exact absurd (by simp) hmiss
  | cons p ps ih =>
    intro hps hmiss rest stk hskip st
    cases hc : env p with
    | none =>
      refine ⟨1, fun fuel hf => ?_⟩
      obtain ⟨k, rfl⟩ : ∃ k, fuel = k + 1 := ⟨fuel - 1, by omega⟩
      refine ⟨p, List.mem_cons_self _ _, ?_⟩
      simp [ppLines, hskip, hc]
    | some c =>
      have hflat : ∀ q, PPLine.includeD q ∉ c := hps p (List.mem_cons_self _ _) c hc
      have hps2 : ∀ q ∈ ps, ∀ c2, env q = some c2 → ∀ r, PPLine.includeD r ∉ c2 :=
        fun q hq => hps q (List.mem_cons_of_mem p hq)
      have hmiss2 : ¬ ∀ q ∈ ps, (env q).isSome = true := by
        intro hall
        exact hmiss (by
          intro q hq
          rcases List.mem_cons.mp hq with rfl | hq2
          · simp [hc]
          · exact hall q hq2)
      obtain ⟨f1, hf1⟩ := ih hps2 hmiss2 rest stk hskip (ppPure c [] st)
      refine ⟨(f1 + c.length) + 1, fun fuel hf => ?_⟩
      obtain ⟨k, hk, rfl⟩ : ∃ k, f1 ≤ k ∧ fuel = (k + c.length) + 1 :=
        ⟨fuel - c.length - 1, by omega, by omega⟩
      simp only [List.map_cons, List.cons_append]
      rw [ppLines_include_step env p c _ stk st hc hskip hflat k]
      obtain ⟨q, hq, hres⟩ := hf1 (k + c.length) (by omega)
      exact ⟨q, List.mem_cons_of_mem p hq, hres⟩

/-- Any successful run of either facade file leaves the guard macro
defined: either it was defined already (and survives, since nothing
undefines macros), or the own `#define` line of the facade put it there. -/
theorem facade_guard_after (env : Env) (file : List PPLine)
    (hfile : file = relFacade ∨ file = absFacade) (fuel : Nat) (st st2 : PPState)
    (h : ppFile env fuel file st = .ok st2) : guardM ∈ st2.defined := by
  by_cases hg : guardM ∈ st.defined
  · exact ppLines_defined_mono env fuel file [] st st2 h guardM hg
  · have hmem : guardM ∈ st.defined ++ [guardM] :=
      List.mem_append_right _ (List.mem_singleton_self _)
    have hlen := ppLines_ok_length env fuel file [] st st2 h
    rcases hfile with rfl | rfl
    · have h17 : relFacade.length = 17 := rfl
      obtain ⟨k, rfl⟩ : ∃ k, fuel = k + 10 := ⟨fuel - 10, by omega⟩
      simp only [ppFile] at h
      rw [relFacade_open env k st hg] at h
      exact ppLines_defined_mono env k _ [true] _ st2 h guardM hmem
    · have h16 : absFacade.length = 16 := rfl
      obtain ⟨k, rfl⟩ : ∃ k, fuel = k + 10 := ⟨fuel - 10, by omega⟩
      simp only [ppFile] at h
      rw [absFacade_open env k st hg] at h
      exact ppLines_defined_mono env k _ [true] _ st2 h guardM hmem

/-- With the guard macro already defined, either facade file processes
to a no-op whenever the fuel covers its line count. -/
theorem facade_skip_of_defined (env : Env) (file : List PPLine)
    (hfile : file = relFacade ∨ file = absFacade) (fuel : Nat) (st : PPState)
    (hg : guardM ∈ st.defined) (hf : file.length ≤ fuel) :
    ppFile env fuel file st = .ok st := by
  rcases hfile with rfl | rfl
  · have h17 : relFacade.length = 17 := rfl
    obtain ⟨k, rfl⟩ : ∃ k, fuel = k + 17 := ⟨fuel - 17, by omega⟩
    exact relFacade_skip env k st hg
  · have h16 : absFacade.length = 16 := rfl
    obtain ⟨k, rfl⟩ : ∃ k, fuel = k + 16 := ⟨fuel - 16, by omega⟩
    exact absFacade_skip env k st hg

/-- If all four include paths of the relative facade resolve to
include-free headers, processing the facade succeeds once the fuel is
large enough. -/
theorem relFacade_ok_of_resolvable (env : Env)
    (henv : ∀ p c, env p = some c → ∀ q, PPLine.includeD q ∉ c)
    (hall : ∀ p ∈ relPaths, (env p).isSome = true) (st : PPState) (hg : guardM ∉ st.defined) :
    ∃ f0, ∀ fuel, f0 ≤ fuel → ∃ st2, ppFile env fuel relFacade st = .ok st2 := by
  have hps : ∀ p ∈ relPaths, ∃ c, env p = some c ∧ ∀ q, PPLine.includeD q ∉ c := by
    intro p hp
    cases hep : env p with
    | none =>
      have hsome := hall p hp
      rw [hep] at hsome
      exact absurd hsome (by simp)
    | some c => exact ⟨c, rfl, henv p c hep⟩
  obtain ⟨f1, hf1⟩ := ppLines_incl_ok env relPaths hps [PPLine.blank, PPLine.endifD, PPLine.blank]
    (by decide) [true] rfl { st with defined := st.defined ++ [guardM] }
  refine ⟨f1 + 10, fun fuel hf => ?_⟩
  obtain ⟨k, hk, rfl⟩ : ∃ k, f1 ≤ k ∧ fuel = k + 10 := ⟨fuel - 10, by omega, by omega⟩
  show ∃ st2, ppLines env (k + 10) relFacade [] st = .ok st2
  rw [relFacade_open env k st hg]
  exact hf1 k hk

/-- If some include path of the relative facade does not resolve (and
the resolving ones are include-free), processing the facade fails with
an unresolved-path error naming one of its four include paths, once the
fuel is large enough. -/
theorem relFacade_fail_of_missing (env : Env)
    (henv : ∀ p c, env p = some c → ∀ q, PPLine.includeD q ∉ c)
    (hmiss : ¬ ∀ p ∈ relPaths, (env p).isSome = true) (st : PPState) (hg : guardM ∉ st.defined) :
    ∃ f0, ∀ fuel, f0 ≤ fuel →
      ∃ p, p ∈ relPaths ∧ ppFile env fuel relFacade st = .unresolved p := by
  obtain ⟨f1, hf1⟩ := ppLines_incl_fail env relPaths (fun p _ => henv p) hmiss
    [PPLine.blank, PPLine.endifD, PPLine.blank] [true] rfl
    { st with defined := st.defined ++ [guardM] }
  refine ⟨f1 + 10, fun fuel hf => ?_⟩
  obtain ⟨k, hk, rfl⟩ : ∃ k, f1 ≤ k ∧ fuel = k + 10 := ⟨fuel - 10, by omega, by omega⟩
  show ∃ p, p ∈ relPaths ∧ ppLines env (k + 10) relFacade [] st = .unresolved p
  rw [relFacade_open env k st hg]
  exact hf1 k hk

/-- If all four include paths of the absolute facade resolve to
include-free headers, processing the facade succeeds once the fuel is
large enough. -/
theorem absFacade_ok_of_resolvable (env : Env)
    (henv : ∀ p c, env p = some c → ∀ q, PPLine.includeD q ∉ c)
    (hall : ∀ p ∈ absPaths, (env p).isSome = true) (st : PPState) (hg : guardM ∉ st.defined) :
    ∃ f0, ∀ fuel, f0 ≤ fuel → ∃ st2, ppFile env fuel absFacade st = .ok st2 := by
  have hps : ∀ p ∈ absPaths, ∃ c, env p = some c ∧ ∀ q, PPLine.includeD q ∉ c := by
    intro p hp
    cases hep : env p with
    | none =>
      have hsome := hall p hp
      rw [hep] at hsome
      exact absurd hsome (by simp)
    | some c => exact ⟨c, rfl, henv p c hep⟩
  obtain ⟨f1, hf1⟩ := ppLines_incl_ok env absPaths hps [PPLine.blank, PPLine.endifD]
    (by decide) [true] rfl { st with defined := st.defined ++ [guardM] }
  refine ⟨f1 + 10, fun fuel hf => ?_⟩
  obtain ⟨k, hk, rfl⟩ : ∃ k, f1 ≤ k ∧ fuel = k + 10 := ⟨fuel - 10, by omega, by omega⟩
  show ∃ st2, ppLines env (k + 10) absFacade [] st = .ok st2
  rw [absFacade_open env k st hg]
  exact hf1 k hk

/-- If some include path of the absolute facade does not resolve (and
the resolving ones are include-free), processing the facade fails with
an unresolved-path error naming one of its four include paths, once the
fuel is large enough. -/
theorem absFacade_fail_of_missing (env : Env)
    (henv : ∀ p c, env p = some c → ∀ q, PPLine.includeD q ∉ c)
    (hmiss : ¬ ∀ p ∈ absPaths, (env p).isSome = true) (st : PPState) (hg : guardM ∉ st.defined) :
    ∃ f0, ∀ fuel, f0 ≤ fuel →
      ∃ p, p ∈ absPaths ∧ ppFile env fuel absFacade st = .unresolved p := by
  obtain ⟨f1, hf1⟩ := ppLines_incl_fail env absPaths (fun p _ => henv p) hmiss
    [PPLine.blank, PPLine.endifD] [true] rfl
    { st with defined := st.defined ++ [guardM] }
  refine ⟨f1 + 10, fun fuel hf => ?_⟩
  obtain ⟨k, hk, rfl⟩ : ∃ k, f1 ≤ k ∧ fuel = k + 10 := ⟨fuel - 10, by omega, by omega⟩
  show ∃ p, p ∈ absPaths ∧ ppLines env (k + 10) absFacade [] st = .unresolved p
  rw [absFacade_open env k st hg]
  exact hf1 k hk

/-- Resolving the first include path of the relative facade from its own
directory `d ++ [x]`: the leading `..` pops `x`, so it lands on the
`ggml.h` header under a `whisper.cpp` sibling of that directory. -/
theorem resolveFrom_rel_ggml (d : List String) (x : String) :
    resolveFrom (d ++ [x]) "../whisper.cpp/ggml/include/ggml.h"
      = d ++ ["whisper.cpp", "ggml", "include", "ggml.h"] := by
  have h1 : splitPath "../whisper.cpp/ggml/include/ggml.h"
      = ["..", "whisper.cpp", "ggml", "include", "ggml.h"] := rfl
  rw [resolveFrom, h1]
  simp [resolveSegs]

/-- Resolving the second include path of the relative facade from `d ++ [x]`
lands on `ggml-cpu.h` under the `whisper.cpp` sibling. -/
theorem resolveFrom_rel_cpu (d : List String) (x : String) :
    resolveFrom (d ++ [x]) "../whisper.cpp/ggml/include/ggml-cpu.h"
      = d ++ ["whisper.cpp", "ggml", "include", "ggml-cpu.h"] := by
  have h1 : splitPath "../whisper.cpp/ggml/include/ggml-cpu.h"
      = ["..", "whisper.cpp", "ggml", "include", "ggml-cpu.h"] := rfl
  rw [resolveFrom, h1]
  simp [resolveSegs]

/-- Resolving the third include path of the relative facade from `d ++ [x]`
lands on `ggml-backend.h` under the `whisper.cpp` sibling. -/
theorem resolveFrom_rel_backend (d : List String) (x : String) :
    resolveFrom (d ++ [x]) "../whisper.cpp/ggml/include/ggml-backend.h"
      = d ++ ["whisper.cpp", "ggml", "include", "ggml-backend.h"] := by
  have h1 : splitPath "../whisper.cpp/ggml/include/ggml-backend.h"
      = ["..", "whisper.cpp", "ggml", "include", "ggml-backend.h"] := rfl
  rw [resolveFrom, h1]
  simp [resolveSegs]

/-- Resolving the fourth include path of the relative facade from `d ++ [x]`
lands on `whisper.h` under the `whisper.cpp` sibling. -/
theorem resolveFrom_rel_whisper (d : List String) (x : String) :
    resolveFrom (d ++ [x]) "../whisper.cpp/include/whisper.h"
      = d ++ ["whisper.cpp", "include", "whisper.h"] := by
  have h1 : splitPath "../whisper.cpp/include/whisper.h"
      = ["..", "whisper.cpp", "include", "whisper.h"] := rfl
  rw [resolveFrom, h1]
  simp [resolveSegs]

/-- C1: for each of the two facade headers, inclusion is idempotent
within one translation unit: a successful first inclusion leaves the
guard macro `Whisperer_Bridging_Header_h` defined, and processing the
same facade again from the resulting state expands to nothing — the
state (declarations seen and macros defined) is exactly that of a
single inclusion, so no duplicate definitions can arise. -/
theorem C1_include_guard_idempotent (env : Env) (file : List PPLine)
    (hfile : file = relFacade ∨ file = absFacade) (fuel : Nat) (st st2 : PPState)
    (h : ppFile env fuel file st = .ok st2) :
    guardM ∈ st2.defined ∧ ppFile env fuel file st2 = .ok st2 :=
  ⟨facade_guard_after env file hfile fuel st st2 h,
    facade_skip_of_defined env file hfile fuel st2
      (facade_guard_after env file hfile fuel st st2 h)
      (ppLines_ok_length env fuel file [] st st2 h)⟩

/-- Witness for C1: a concrete first inclusion of the relative facade
under its stub environment, and the resulting no-op second inclusion. -/
theorem C1_include_guard_idempotent_witness :
    guardM ∈ stubOnce.defined ∧ ppFile envStubRel 30 relFacade stubOnce = .ok stubOnce :=
  C1_include_guard_idempotent envStubRel relFacade (Or.inl rfl) 30 ⟨[], []⟩ stubOnce (by decide)

/-- C2: the two bridging-header files are equal up to include-path
spelling (and a trailing blank line): dropping blank lines, each file is
the common template `mkFacadeCore` instantiated at its base path — the
same guard macro, the same four header names `ggml/include/ggml.h`,
`ggml/include/ggml-cpu.h`, `ggml/include/ggml-backend.h`,
`include/whisper.h` in the same order, the first under the relative
prefix `../whisper.cpp/` and the second under the absolute prefix
`/Users/alexanderi/Downloads/whisperer/whisper.cpp/`, with every other
line identical. -/
theorem C2_facades_equal_up_to_base_path :
    relFacade.filter nonBlank = mkFacadeCore relBase ∧
    absFacade.filter nonBlank = mkFacadeCore absBase ∧
    relBase ≠ absBase := by decide

/-- C3: each facade aggregates exactly four external headers, in order
`ggml.h`, `ggml-cpu.h`, `ggml-backend.h`, `whisper.h` (no others), and
under an environment resolving those four paths, including the facade
makes the declarations of all four capability groups available transitively. -/
theorem C3_facade_aggregates_four_headers :
    relFacade.filterMap lineIncl = relPaths ∧
    absFacade.filterMap lineIncl = absPaths ∧
    ppFile envStubRel 30 relFacade ⟨[], []⟩ = .ok stubOnce ∧
    ppFile envStubAbs 30 absFacade ⟨[], []⟩ = .ok stubOnce := by decide

/-- C4: on any build environment where the machine-specific absolute
paths do not resolve, compiling a translation unit that includes the
nested facade (from a state where the guard is not yet defined) fails at
build time: preprocessing stops with an unresolved-path error on the
first absolute `#include` of the facade. -/
theorem C4_absolute_facade_fails_elsewhere (env : Env) (fuel : Nat) (st : PPState)
    (henv : ∀ p ∈ absPaths, env p = none) (hg : guardM ∉ st.defined) (hfuel : 11 ≤ fuel) :
    ppFile env fuel absFacade st
      = .unresolved "/Users/alexanderi/Downloads/whisperer/whisper.cpp/ggml/include/ggml.h" := by
  obtain ⟨k, rfl⟩ : ∃ k, fuel = (k + 1) + 10 := ⟨fuel - 11, by omega⟩
  show ppLines env ((k + 1) + 10) absFacade [] st = _
  rw [absFacade_open env (k + 1) st hg]
  have h1 : env "/Users/alexanderi/Downloads/whisperer/whisper.cpp/ggml/include/ggml.h" = none :=
    henv _ (by decide)
  simp [ppLines, skipping, absPaths, h1]

/-- Witness for C4: under the empty filesystem, the absolute-path facade
fails on its first include. -/
theorem C4_absolute_facade_fails_elsewhere_witness :
    ppFile (fun _ => none) 11 absFacade ⟨[], []⟩
      = .unresolved "/Users/alexanderi/Downloads/whisperer/whisper.cpp/ggml/include/ggml.h" :=
  C4_absolute_facade_fails_elsewhere (fun _ => none) 11 ⟨[], []⟩ (fun _ _ => rfl)
    (by decide) (by decide)

/-- C5: both facades are pure pass-throughs. Syntactically, neither file
contains a declaration line of its own and the only macro either defines
is the include guard. Semantically, if the included headers declare
nothing, a successful inclusion emits nothing: every declaration visible
after inclusion originates in the four included headers. -/
theorem C5_pure_pass_through (env : Env)
    (henv : ∀ p c, env p = some c → ∀ s, PPLine.declD s ∉ c)
    (file : List PPLine) (hfile : file = relFacade ∨ file = absFacade)
    (fuel : Nat) (st st2 : PPState) (h : ppFile env fuel file st = .ok st2) :
    st2.out = st.out ∧ file.filterMap lineDecl = [] ∧ file.filterMap lineDef = [guardM] := by
  have hnd : ∀ s, PPLine.declD s ∉ file := by
    rcases hfile with rfl | rfl <;> intro s <;> simp [relFacade, absFacade]
  refine ⟨ppLines_out_stable env henv fuel file [] st st2 hnd h, ?_, ?_⟩ <;>
    rcases hfile with rfl | rfl <;> decide

/-- Witness for C5: including the relative facade with all four headers
resolving to empty files adds nothing to the previously seen output. -/
theorem C5_pure_pass_through_witness :
    (⟨["Whisperer_Bridging_Header_h"], ["pre-existing"]⟩ : PPState).out
        = (⟨[], ["pre-existing"]⟩ : PPState).out ∧
      relFacade.filterMap lineDecl = [] ∧ relFacade.filterMap lineDef = [guardM] :=
  C5_pure_pass_through (fun _ => some [])
    (by
      intro p c hc s hs
      injection hc with h2
      subst h2
      exact List.not_mem_nil _ hs)
    relFacade (Or.inl rfl) 30 ⟨[], ["pre-existing"]⟩
    ⟨["Whisperer_Bridging_Header_h"], ["pre-existing"]⟩ (by decide)

/-- C6: the facade layer has no runtime behavior: over any environment
whose headers are include-free, processing either facade — given enough
fuel, so that the fuel bound of the embedding never fires — either
succeeds, or fails with a build-time unresolved-path error naming one of
the own four include paths of that facade. No other failure is possible, and
the facades themselves execute nothing: their lines are directives and
comments only. -/
theorem C6_only_build_time_resolution_errors (env : Env) (st : PPState)
    (henv : ∀ p c, env p = some c → ∀ q, PPLine.includeD q ∉ c)
    (hg : guardM ∉ st.defined) :
    ∃ f0, ∀ fuel, f0 ≤ fuel →
      ((∃ st2, ppFile env fuel relFacade st = .ok st2) ∨
        (∃ p, p ∈ relPaths ∧ ppFile env fuel relFacade st = .unresolved p)) ∧
      ((∃ st2, ppFile env fuel absFacade st = .ok st2) ∨
        (∃ p, p ∈ absPaths ∧ ppFile env fuel absFacade st = .unresolved p)) := by
  have hrel : ∃ f0, ∀ fuel, f0 ≤ fuel →
      ((∃ st2, ppFile env fuel relFacade st = .ok st2) ∨
        (∃ p, p ∈ relPaths ∧ ppFile env fuel relFacade st = .unresolved p)) := by
    by_cases hall : ∀ p ∈ relPaths, (env p).isSome = true
    · obtain ⟨f0, hf0⟩ := relFacade_ok_of_resolvable env henv hall st hg
      exact ⟨f0, fun fuel hf => Or.inl (hf0 fuel hf)⟩
    · obtain ⟨f0, hf0⟩ := relFacade_fail_of_missing env henv hall st hg
      exact ⟨f0, fun fuel hf => Or.inr (hf0 fuel hf)⟩
  have habs : ∃ f0, ∀ fuel, f0 ≤ fuel →
      ((∃ st2, ppFile env fuel absFacade st = .ok st2) ∨
        (∃ p, p ∈ absPaths ∧ ppFile env fuel absFacade st = .unresolved p)) := by
    by_cases hall : ∀ p ∈ absPaths, (env p).isSome = true
    · obtain ⟨f0, hf0⟩ := absFacade_ok_of_resolvable env henv hall st hg
      exact ⟨f0, fun fuel hf => Or.inl (hf0 fuel hf)⟩
    · obtain ⟨f0, hf0⟩ := absFacade_fail_of_missing env henv hall st hg
      exact ⟨f0, fun fuel hf => Or.inr (hf0 fuel hf)⟩
  obtain ⟨fr, hr⟩ := hrel
  obtain ⟨fa, ha⟩ := habs
  exact ⟨max fr fa, fun fuel hf =>
    ⟨hr fuel (le_trans (le_max_left _ _) hf), ha fuel (le_trans (le_max_right _ _) hf)⟩⟩

/-- Witness for C6: the dichotomy instantiated at the environment that
resolves every path to an empty header. -/
theorem C6_only_build_time_resolution_errors_witness :
    ∃ f0, ∀ fuel, f0 ≤ fuel →
      ((∃ st2, ppFile (fun _ => some []) fuel relFacade ⟨[], []⟩ = .ok st2) ∨
        (∃ p, p ∈ relPaths ∧ ppFile (fun _ => some []) fuel relFacade ⟨[], []⟩ = .unresolved p)) ∧
      ((∃ st2, ppFile (fun _ => some []) fuel absFacade ⟨[], []⟩ = .ok st2) ∨
        (∃ p, p ∈ absPaths ∧ ppFile (fun _ => some []) fuel absFacade ⟨[], []⟩ = .unresolved p)) :=
  C6_only_build_time_resolution_errors (fun _ => some []) ⟨[], []⟩
    (by
      intro p c hc q hq
      injection hc with h2
      subst h2
      exact List.not_mem_nil _ hq)
    (by decide)

/-- C7 counterexample: the line counts in the claim are wrong — the
relative-path file has 17 lines, not 18 (and the nested file 16), so the
claimed breakdown `18 + 16` of the under-40 budget does not hold of the
two files as they stand. -/
theorem C7_counterexample_line_counts :
    ¬ (relFacade.length = 18 ∧ absFacade.length = 16 ∧
        relFacade.length + absFacade.length < 40) := by decide

/-- C7 as amended: the two bridging-header files together contain fewer
than 40 source lines — 17 lines plus 16 lines. -/
theorem C7_line_budget_under_40 :
    relFacade.length = 17 ∧ absFacade.length = 16 ∧
      relFacade.length + absFacade.length < 40 := by decide

/-- C8: the two facade files share the guard macro
`Whisperer_Bridging_Header_h`, so once either facade has been processed
successfully, processing the other (or the same) facade afterwards — in
any environment, even one where its differently spelled include paths
resolve to nothing — is a no-op: its entire body is skipped and no
include of its own is processed. The two facades are mutually exclusive
within one translation unit, in either order. -/
theorem C8_guard_sharing_mutual_exclusion (env env2 : Env) (f g : List PPLine)
    (hf : f = relFacade ∨ f = absFacade) (hgf : g = relFacade ∨ g = absFacade)
    (fuel fuel2 : Nat) (st st2 : PPState)
    (h : ppFile env fuel f st = .ok st2) (hfuel2 : 17 ≤ fuel2) :
    ppFile env2 fuel2 g st2 = .ok st2 := by
  refine facade_skip_of_defined env2 g hgf fuel2 st2
    (facade_guard_after env f hf fuel st st2 h) ?_
  rcases hgf with rfl | rfl
  · have h17 : relFacade.length = 17 := rfl
    omega
  · have h16 : absFacade.length = 16 := rfl
    omega

/-- Witness for C8: after a concrete successful inclusion of the
relative facade, the absolute facade is a no-op even under the empty
filesystem, where its absolute paths resolve to nothing. -/
theorem C8_guard_sharing_mutual_exclusion_witness :
    ppFile (fun _ => none) 17 absFacade stubOnce = .ok stubOnce :=
  C8_guard_sharing_mutual_exclusion envStubRel (fun _ => none) relFacade absFacade
    (Or.inl rfl) (Or.inr rfl) 30 17 ⟨[], []⟩ stubOnce (by decide) (by decide)

/-- C9: each facade defines its guard before any `#include` is
processed, so preprocessing terminates even if an included header
re-includes the facade: with the guard defined, re-processing the facade
expands to nothing, and on a concrete cyclic environment — whose first
header includes the facade itself before its own declaration — the whole
run terminates with exactly one copy of the four declarations. -/
theorem C9_reinclusion_expands_to_nothing (env : Env) (file : List PPLine)
    (hfile : file = relFacade ∨ file = absFacade) (fuel : Nat) (st : PPState)
    (hg : guardM ∈ st.defined) (hfuel : 17 ≤ fuel) :
    ppFile env fuel file st = .ok st ∧
      ppFile envCyc 60 relFacade ⟨[], []⟩
        = .ok ⟨["Whisperer_Bridging_Header_h"],
               ["ggml-decls", "ggml-cpu-decls", "ggml-backend-decls", "whisper-decls"]⟩ := by
  refine ⟨facade_skip_of_defined env file hfile fuel st hg ?_, by decide⟩
  rcases hfile with rfl | rfl
  · have h17 : relFacade.length = 17 := rfl
    omega
  · have h16 : absFacade.length = 16 := rfl
    omega

/-- Witness for C9: with the guard already defined, the relative facade
is a no-op under the empty environment, and the cyclic-environment run
terminates. -/
theorem C9_reinclusion_expands_to_nothing_witness :
    ppFile (fun _ => none) 17 relFacade ⟨["Whisperer_Bridging_Header_h"], []⟩
        = .ok ⟨["Whisperer_Bridging_Header_h"], []⟩ ∧
      ppFile envCyc 60 relFacade ⟨[], []⟩
        = .ok ⟨["Whisperer_Bridging_Header_h"],
               ["ggml-decls", "ggml-cpu-decls", "ggml-backend-decls", "whisper-decls"]⟩ :=
  C9_reinclusion_expands_to_nothing (fun _ => none) relFacade (Or.inl rfl) 17
    ⟨["Whisperer_Bridging_Header_h"], []⟩ (by decide) (by decide)

/-- C10: the four includes of the relative facade resolve from its own
directory `d ++ [x]` exactly when a sibling directory `whisper.cpp`
of that directory (i.e. a child of `d`) holds `ggml/include/ggml.h`,
`ggml/include/ggml-cpu.h`, `ggml/include/ggml-backend.h`, and
`include/whisper.h`; under that layout (and enough fuel) a translation
unit including the facade preprocesses successfully, and absent it,
preprocessing fails at build time with an unresolved-path error on one
of the own includes of the facade. -/
theorem C10_relative_layout_resolution (fs : List (List String)) (d : List String) (x : String)
    (st : PPState) (hg : guardM ∉ st.defined) :
    ((∀ p ∈ relPaths, resolveFrom (d ++ [x]) p ∈ fs) ↔
      (∀ t ∈ siblingTargets, d ++ t ∈ fs)) ∧
    ((∀ t ∈ siblingTargets, d ++ t ∈ fs) →
      ∃ f0, ∀ fuel, f0 ≤ fuel →
        ∃ st2, ppFile (envFS fs (d ++ [x])) fuel relFacade st = .ok st2) ∧
    ((¬ ∀ t ∈ siblingTargets, d ++ t ∈ fs) →
      ∃ f0, ∀ fuel, f0 ≤ fuel →
        ∃ p, p ∈ relPaths ∧ ppFile (envFS fs (d ++ [x])) fuel relFacade st = .unresolved p) := by
  have henvFS : ∀ p c, envFS fs (d ++ [x]) p = some c → ∀ q, PPLine.includeD q ∉ c := by
    intro p c hc q hq
    by_cases hp : resolveFrom (d ++ [x]) p ∈ fs
    · simp only [envFS, if_pos hp, Option.some.injEq] at hc
      subst hc
      simp at hq
    · simp only [envFS, if_neg hp] at hc
      exact Option.noConfusion hc
  have hiff : (∀ p ∈ relPaths, resolveFrom (d ++ [x]) p ∈ fs) ↔
      (∀ t ∈ siblingTargets, d ++ t ∈ fs) := by
    simp only [relPaths, siblingTargets, List.forall_mem_cons, List.forall_mem_nil,
      resolveFrom_rel_ggml, resolveFrom_rel_cpu, resolveFrom_rel_backend,
      resolveFrom_rel_whisper]
    simp
  refine ⟨hiff, ?_, ?_⟩
  · intro hlay
    have hres := hiff.mpr hlay
    refine relFacade_ok_of_resolvable (envFS fs (d ++ [x])) henvFS ?_ st hg
    intro p hp
    simp [envFS, if_pos (hres p hp)]
  · intro hnot
    refine relFacade_fail_of_missing (envFS fs (d ++ [x])) henvFS ?_ st hg
    intro hall2
    apply hnot
    refine hiff.mp ?_
    intro p hp
    have hsome := hall2 p hp
    by_cases hmem : resolveFrom (d ++ [x]) p ∈ fs
    · exact hmem
    · simp [envFS, hmem] at hsome

/-- Witness for C10: a concrete filesystem holding exactly the sibling
`whisper.cpp` layout next to the directory of the facade. -/
theorem C10_relative_layout_resolution_witness :
    ((∀ p ∈ relPaths,
        resolveFrom (["home"] ++ ["Whisperer"]) p ∈
          ([ ["home", "whisper.cpp", "ggml", "include", "ggml.h"],
             ["home", "whisper.cpp", "ggml", "include", "ggml-cpu.h"],
             ["home", "whisper.cpp", "ggml", "include", "ggml-backend.h"],
             ["home", "whisper.cpp", "include", "whisper.h"] ] : List (List String))) ↔
      (∀ t ∈ siblingTargets,
        ["home"] ++ t ∈
          ([ ["home", "whisper.cpp", "ggml", "include", "ggml.h"],
             ["home", "whisper.cpp", "ggml", "include", "ggml-cpu.h"],
             ["home", "whisper.cpp", "ggml", "include", "ggml-backend.h"],
             ["home", "whisper.cpp", "include", "whisper.h"] ] : List (List String)))) ∧
    ((∀ t ∈ siblingTargets,
        ["home"] ++ t ∈
          ([ ["home", "whisper.cpp", "ggml", "include", "ggml.h"],
             ["home", "whisper.cpp", "ggml", "include", "ggml-cpu.h"],
             ["home", "whisper.cpp", "ggml", "include", "ggml-backend.h"],
             ["home", "whisper.cpp", "include", "whisper.h"] ] : List (List String))) →
      ∃ f0, ∀ fuel, f0 ≤ fuel →
        ∃ st2, ppFile
          (envFS
            [ ["home", "whisper.cpp", "ggml", "include", "ggml.h"],
              ["home", "whisper.cpp", "ggml", "include", "ggml-cpu.h"],
              ["home", "whisper.cpp", "ggml", "include", "ggml-backend.h"],
              ["home", "whisper.cpp", "include", "whisper.h"] ]
            (["home"] ++ ["Whisperer"])) fuel relFacade ⟨[], []⟩ = .ok st2) ∧
    ((¬ ∀ t ∈ siblingTargets,
        ["home"] ++ t ∈
          ([ ["home", "whisper.cpp", "ggml", "include", "ggml.h"],
             ["home", "whisper.cpp", "ggml", "include", "ggml-cpu.h"],
             ["home", "whisper.cpp", "ggml", "include", "ggml-backend.h"],
             ["home", "whisper.cpp", "include", "whisper.h"] ] : List (List String))) →
      ∃ f0, ∀ fuel, f0 ≤ fuel →
        ∃ p, p ∈ relPaths ∧ ppFile
          (envFS
            [ ["home", "whisper.cpp", "ggml", "include", "ggml.h"],
              ["home", "whisper.cpp", "ggml", "include", "ggml-cpu.h"],
              ["home", "whisper.cpp", "ggml", "include", "ggml-backend.h"],
              ["home", "whisper.cpp", "include", "whisper.h"] ]
            (["home"] ++ ["Whisperer"])) fuel relFacade ⟨[], []⟩ = .unresolved p) :=
  C10_relative_layout_resolution
    [ ["home", "whisper.cpp", "ggml", "include", "ggml.h"],
      ["home", "whisper.cpp", "ggml", "include", "ggml-cpu.h"],
      ["home", "whisper.cpp", "ggml", "include", "ggml-backend.h"],
      ["home", "whisper.cpp", "include", "whisper.h"] ]
    ["home"] "Whisperer" ⟨[], []⟩ (by decide)

end Whisperer
